import Mathlib

/-!
Formal model of the WLDD task-tracker backend.

Covered source files:
* `src/middleware/rateLimiter.js` — sliding-window rate limiter over a Redis
  sorted set (`createLimiter`, `authLimiter`).
* `src/services/redis.service.js` — best-effort cache wrapper (errors of
  `get`/`set`/`del` are swallowed inside the service).
* `src/services/task.service.js` — task CRUD with a read-through per-owner
  list cache, duplicate detection, ownership-scoped mutation.

Timestamps and scores are epoch milliseconds, modelled as `Nat` for the
limiter (Redis scores of `Date.now()`), and as `Int` for task due dates.
-/

/-! ## Rate limiter (src/middleware/rateLimiter.js) -/

/-- One member of the per-key Redis sorted set: `zadd(key, now, now + ":" + Math.random())`.
The score is the insertion timestamp; the random draw is abstracted as a `nonce`. -/
structure WindowEntry where
  ts : Nat
  nonce : Nat
deriving DecidableEq, Repr

/-- Effect of `zremrangebyscore(key, 0, now - windowMs)`: every entry whose score lies
in `[0, now - windowMs]` is dropped; an entry survives iff `ts > now - windowMs`,
written over `Nat` as `now < ts + windowMs` (rateLimiter.js line 46). -/
def pruneWindow (now windowMs : Nat) (entries : List WindowEntry) : List WindowEntry :=
  entries.filter (fun e => decide (now < e.ts + windowMs))

/-- Score returned by `zrange(key, 0, 0, WITHSCORES)`: the smallest score in the set,
`none` when the set is empty (rateLimiter.js lines 53-59). -/
def oldestScore : List WindowEntry → Option Nat
  | [] => none
  | e :: es =>
    match oldestScore es with
    | none => some e.ts
    | some m => some (min e.ts m)

/-- Ceiling division `Math.ceil(x / 1000)` for a nonnegative number of milliseconds. -/
def ceilSeconds (x : Nat) : Nat := (x + 999) / 1000

/-- Outcome of one evaluation of the limiter middleware when the backing store is
ready and every store call succeeds. `entries` is the sorted-set state left behind. -/
inductive LimiterResult where
  | allowed (remaining resetAt expirySeconds : Nat) (entries : List WindowEntry)
  | rejected (retryAfter : Nat) (entries : List WindowEntry)
deriving DecidableEq, Repr

/-- Store-ready path of the middleware returned by `RateLimiter.createLimiter`
(rateLimiter.js lines 41-80): prune the window, count survivors, reject with a
retry-after when the count reaches `max` (adding nothing), otherwise add the
entry `(now, nonce)`, refresh the key expiry, and report the headers. -/
def limiterStep (entries : List WindowEntry) (now windowMs maxRequests nonce : Nat) : LimiterResult :=
  let pruned := pruneWindow now windowMs entries
  let requestCount := pruned.length
  if maxRequests ≤ requestCount then
    let retryAfter :=
      match oldestScore pruned with
      | some oldestTimestamp => ceilSeconds (oldestTimestamp + windowMs - now)
      | none => ceilSeconds windowMs
    .rejected retryAfter pruned
  else
    .allowed (maxRequests - requestCount - 1) (now + windowMs) (ceilSeconds windowMs)
      (pruned ++ [⟨now, nonce⟩])

/-- Sorted-set state left behind by an evaluation. -/
def resultEntries : LimiterResult → List WindowEntry
  | .allowed _ _ _ es => es
  | .rejected _ es => es

/-- Fault injection for the backing store: a `true` field means the corresponding
Redis call raises instead of completing. -/
structure FaultSpec where
  zremrangebyscore : Bool
  zcard : Bool
  zrange : Bool
  zadd : Bool
  expire : Bool
deriving DecidableEq, Repr

/-- The `ioredis` client as seen by the middleware: a readiness string, the
per-key sorted-set contents, and which calls fail. -/
structure RedisClient where
  status : String
  faults : FaultSpec
  entries : List WindowEntry
deriving DecidableEq, Repr

/-- What the middleware hands to Express: `next()` with no argument (request
admitted) or `next(err)` with a `RateLimitError` carrying `retryAfter`.
The catch-all at rateLimiter.js lines 100-108 re-raises only `RateLimitError`
and swallows everything else. -/
inductive MWOutcome where
  | next
  | nextRateLimit (retryAfter : Nat)
deriving DecidableEq, Repr

/-- Full control flow of one middleware evaluation (rateLimiter.js lines 34-109),
including the absent-client / non-ready guard (lines 37-39) and the catch-all
(lines 100-108). A faulted call raises; the catch-all turns it into `next()`.
The second component is the sorted-set state left in the store. -/
def limiterMiddleware (client : Option RedisClient) (now windowMs maxRequests nonce : Nat) :
    MWOutcome × List WindowEntry :=
  match client with
  | none => (.next, [])
  | some c =>
    if c.status ≠ "ready" then (.next, c.entries)
    else if c.faults.zremrangebyscore then (.next, c.entries)
    else
      let pruned := pruneWindow now windowMs c.entries
      if c.faults.zcard then (.next, pruned)
      else if maxRequests ≤ pruned.length then
        if c.faults.zrange then (.next, pruned)
        else
          (.nextRateLimit
            (match oldestScore pruned with
             | some o => ceilSeconds (o + windowMs - now)
             | none => ceilSeconds windowMs), pruned)
      else if c.faults.zadd then (.next, pruned)
      else (.next, pruned ++ [⟨now, nonce⟩])

/-- Options relevant to claim C9, as set by `RateLimiter.authLimiter`
(rateLimiter.js lines 142-150). -/
structure LimiterOptions where
  windowMs : Nat
  maxRequests : Nat
  skipSuccessfulRequests : Bool
  skipFailedRequests : Bool
deriving DecidableEq, Repr

/-- Values that `authLimiter()` passes: window 15 minutes, max 5, `skipSuccessfulRequests: true`. -/
def authLimiterOptions : LimiterOptions :=
  { windowMs := 15 * 60 * 1000
    maxRequests := 5
    skipSuccessfulRequests := true
    skipFailedRequests := false }

/-- The `res.send` wrapper installed at rateLimiter.js lines 83-97. When the
response completes with a status that should be skipped, the code calls
`zrem(key, now + ":" + Math.random())`: the member name is rebuilt from a fresh
random draw (`freshNonce`), not the member inserted by `zadd` at line 72.
`ZREM` removes exactly the named member. -/
def responseSendAdjust (entries : List WindowEntry) (now freshNonce statusCode : Nat)
    (skipSuccessfulRequests skipFailedRequests : Bool) : List WindowEntry :=
  if (skipSuccessfulRequests && decide (statusCode < 400))
      || (skipFailedRequests && decide (400 ≤ statusCode)) then
    entries.filter (fun e => decide (e ≠ ⟨now, freshNonce⟩))
  else entries

/-! ### Rate limiter helper lemmas -/

lemma mem_pruneWindow {e : WindowEntry} {now windowMs : Nat} {entries : List WindowEntry} :
    e ∈ pruneWindow now windowMs entries ↔ e ∈ entries ∧ now < e.ts + windowMs := by
  simp [pruneWindow, List.mem_filter]

lemma limiterStep_eq_rejected {entries : List WindowEntry} {now windowMs maxRequests nonce : Nat}
    (h : maxRequests ≤ (pruneWindow now windowMs entries).length) :
    limiterStep entries now windowMs maxRequests nonce =
      .rejected
        (match oldestScore (pruneWindow now windowMs entries) with
         | some o => ceilSeconds (o + windowMs - now)
         | none => ceilSeconds windowMs)
        (pruneWindow now windowMs entries) := by
  simp [limiterStep, h]

lemma limiterStep_eq_allowed {entries : List WindowEntry} {now windowMs maxRequests nonce : Nat}
    (h : (pruneWindow now windowMs entries).length < maxRequests) :
    limiterStep entries now windowMs maxRequests nonce =
      .allowed (maxRequests - (pruneWindow now windowMs entries).length - 1)
        (now + windowMs) (ceilSeconds windowMs)
        (pruneWindow now windowMs entries ++ [⟨now, nonce⟩]) := by
  simp [limiterStep, Nat.not_le.mpr h]

lemma limiterMiddleware_fst_spec (c : RedisClient) (now windowMs maxRequests nonce : Nat) :
    (limiterMiddleware (some c) now windowMs maxRequests nonce).1 =
      (if c.status = "ready" ∧ c.faults.zremrangebyscore = false ∧ c.faults.zcard = false
          ∧ c.faults.zrange = false ∧ maxRequests ≤ (pruneWindow now windowMs c.entries).length
       then .nextRateLimit
          (match oldestScore (pruneWindow now windowMs c.entries) with
           | some o => ceilSeconds (o + windowMs - now)
           | none => ceilSeconds windowMs)
       else .next) := by
  by_cases h1 : c.status = "ready" <;>
    by_cases h2 : c.faults.zremrangebyscore <;>
      by_cases h3 : c.faults.zcard <;>
        by_cases h4 : c.faults.zrange <;>
          by_cases h5 : maxRequests ≤ (pruneWindow now windowMs c.entries).length <;>
            by_cases h6 : c.faults.zadd <;>
              simp [limiterMiddleware, h1, h2, h3, h4, h5, h6]

/-! ### Claims C1, C2, C9 -/

/-- Claim C1: on the store-ready path, entries older than `now - windowMs` are removed
before counting and surviving entries are kept; if the surviving count is at least
`max`, the request is rejected with `retryAfterSeconds = ceil((oldest + windowMs - now)/1000)`
(falling back to `ceil(windowMs/1000)` when no entry is found) and no new entry is
added; otherwise the entry `(now, nonce)` is inserted, the key expiry is set to
`ceil(windowMs/1000)`, the reported remaining count is `max(0, max - currentCount - 1)`
and the reset time is `now + windowMs`. The freshness hypothesis reflects that the
inserted member name carries a nonce unique per insertion. -/
theorem c1_createLimiter_ready_evaluation
    (entries : List WindowEntry) (now windowMs maxRequests nonce : Nat)
    (hfresh : (⟨now, nonce⟩ : WindowEntry) ∉ entries) :
    (∀ e ∈ entries, e.ts + windowMs ≤ now →
        e ∉ resultEntries (limiterStep entries now windowMs maxRequests nonce))
    ∧ (∀ e ∈ entries, now < e.ts + windowMs →
        e ∈ resultEntries (limiterStep entries now windowMs maxRequests nonce))
    ∧ (∀ o, maxRequests ≤ (pruneWindow now windowMs entries).length →
        oldestScore (pruneWindow now windowMs entries) = some o →
        limiterStep entries now windowMs maxRequests nonce =
          .rejected (ceilSeconds (o + windowMs - now)) (pruneWindow now windowMs entries))
    ∧ (maxRequests ≤ (pruneWindow now windowMs entries).length →
        oldestScore (pruneWindow now windowMs entries) = none →
        limiterStep entries now windowMs maxRequests nonce =
          .rejected (ceilSeconds windowMs) (pruneWindow now windowMs entries))
    ∧ ((pruneWindow now windowMs entries).length < maxRequests →
        limiterStep entries now windowMs maxRequests nonce =
          .allowed (maxRequests - (pruneWindow now windowMs entries).length - 1)
            (now + windowMs) (ceilSeconds windowMs)
            (pruneWindow now windowMs entries ++ [⟨now, nonce⟩])) := by
  refine ⟨?_, ?_, ?_, ?_, ?_⟩
  · intro e he hst
    have hnp : e ∉ pruneWindow now windowMs entries := by
      rw [mem_pruneWindow]
      rintro ⟨-, h⟩
      omega
    by_cases hc : maxRequests ≤ (pruneWindow now windowMs entries).length
    · rw [limiterStep_eq_rejected hc]
      simpa [resultEntries] using hnp
    · rw [limiterStep_eq_allowed (Nat.lt_of_not_le hc)]
      simp only [resultEntries, List.mem_append, List.mem_singleton]
      rintro (h | h)
      · exact hnp h
      · exact hfresh (h ▸ he)
  · intro e he hlt
    have hp : e ∈ pruneWindow now windowMs entries := mem_pruneWindow.mpr ⟨he, hlt⟩
    by_cases hc : maxRequests ≤ (pruneWindow now windowMs entries).length
    · rw [limiterStep_eq_rejected hc]
      simpa [resultEntries] using hp
    · rw [limiterStep_eq_allowed (Nat.lt_of_not_le hc)]
      simp only [resultEntries, List.mem_append, List.mem_singleton]
      exact Or.inl hp
  · intro o hc ho
    rw [limiterStep_eq_rejected hc]
    simp [ho]
  · intro hc ho
    rw [limiterStep_eq_rejected hc]
    simp [ho]
  · intro hc
    exact limiterStep_eq_allowed hc

theorem c1_createLimiter_ready_evaluation_witness :
    limiterStep [(⟨0, 0⟩ : WindowEntry), ⟨50, 1⟩] 100 60 1 7 =
      .rejected (ceilSeconds (50 + 60 - 100)) (pruneWindow 100 60 [⟨0, 0⟩, ⟨50, 1⟩]) :=
  (c1_createLimiter_ready_evaluation [⟨0, 0⟩, ⟨50, 1⟩] 100 60 1 7
    (by decide)).2.2.1 50 (by decide) (by decide)

/-- Claim C2: the limiter fails open. If the client is absent, reports a non-ready
status, or any store call made during evaluation raises, the middleware calls
`next()` with no error, for every prior sorted-set state; a `RateLimitError` is the
only error ever propagated, and only from a genuine over-limit evaluation on a
ready, fault-free path. -/
theorem c2_limiter_fail_open (c : RedisClient) (now windowMs maxRequests nonce : Nat) :
    ((limiterMiddleware none now windowMs maxRequests nonce).1 = .next)
    ∧ (c.status ≠ "ready" →
        (limiterMiddleware (some c) now windowMs maxRequests nonce).1 = .next)
    ∧ (c.faults.zremrangebyscore = true →
        (limiterMiddleware (some c) now windowMs maxRequests nonce).1 = .next)
    ∧ (c.faults.zcard = true →
        (limiterMiddleware (some c) now windowMs maxRequests nonce).1 = .next)
    ∧ (c.faults.zrange = true →
        (limiterMiddleware (some c) now windowMs maxRequests nonce).1 = .next)
    ∧ ((pruneWindow now windowMs c.entries).length < maxRequests →
        (limiterMiddleware (some c) now windowMs maxRequests nonce).1 = .next)
    ∧ (∀ r, (limiterMiddleware (some c) now windowMs maxRequests nonce).1 = .nextRateLimit r →
        c.status = "ready" ∧ c.faults.zremrangebyscore = false ∧ c.faults.zcard = false
          ∧ c.faults.zrange = false
          ∧ maxRequests ≤ (pruneWindow now windowMs c.entries).length) := by
  refine ⟨rfl, ?_, ?_, ?_, ?_, ?_, ?_⟩
  · intro h
    rw [limiterMiddleware_fst_spec]
    exact if_neg (by rintro ⟨h1, -⟩; exact h h1)
  · intro h
    rw [limiterMiddleware_fst_spec]
    exact if_neg (by rintro ⟨-, h2, -⟩; simp [h] at h2)
  · intro h
    rw [limiterMiddleware_fst_spec]
    exact if_neg (by rintro ⟨-, -, h3, -⟩; simp [h] at h3)
  · intro h
    rw [limiterMiddleware_fst_spec]
    exact if_neg (by rintro ⟨-, -, -, h4, -⟩; simp [h] at h4)
  · intro h
    rw [limiterMiddleware_fst_spec]
    exact if_neg (by rintro ⟨-, -, -, -, h5⟩; omega)
  · intro r h
    rw [limiterMiddleware_fst_spec] at h
    by_cases hc : c.status = "ready" ∧ c.faults.zremrangebyscore = false
        ∧ c.faults.zcard = false ∧ c.faults.zrange = false
        ∧ maxRequests ≤ (pruneWindow now windowMs c.entries).length
    · exact hc
    · rw [if_neg hc] at h
      cases h

theorem c2_limiter_fail_open_witness :
    (limiterMiddleware (some ⟨"connecting", ⟨false, false, false, false, false⟩, [⟨3, 4⟩]⟩)
      5 10 0 0).1 = .next :=
  (c2_limiter_fail_open ⟨"connecting", ⟨false, false, false, false, false⟩, [⟨3, 4⟩]⟩
    5 10 0 0).2.1 (by decide)

/-- Claim C9 (code bug at rateLimiter.js line 92): the auth limiter is configured with
`skipSuccessfulRequests: true`, but on a successful response the wrapper calls
`zrem(key, now + ":" + Math.random())` with a fresh random draw (here `2`) instead of
the member inserted by `zadd` (here nonce `1`), so the just-added entry survives and
the successful attempt still counts against the limit. -/
theorem c9_authLimiter_success_entry_not_removed :
    authLimiterOptions.skipSuccessfulRequests = true
    ∧ responseSendAdjust [⟨1000, 1⟩] 1000 2 200
        authLimiterOptions.skipSuccessfulRequests authLimiterOptions.skipFailedRequests
        = [⟨1000, 1⟩] := by
  constructor
  · rfl
  · decide

/-! ## Task service (src/services/task.service.js, src/services/redis.service.js) -/

namespace TaskService

/-- Task status enum from the Mongoose schema (`enum: [pending, completed]`). -/
inductive Status where
  | pending
  | completed
deriving DecidableEq, Repr

/-- A persisted task document. `description = none` models a document where the
field is absent or null (both match the Mongo query `{description: null}`).
`dueDate` and `createdAt` are epoch milliseconds. -/
structure Task where
  id : Nat
  title : String
  description : Option String
  dueDate : Int
  status : Status
  owner : String
  createdAt : Int
deriving DecidableEq, Repr

/-- One Redis key/value pair written by `redisService.set(key, tasks, ttl)`. -/
structure CacheEntry where
  key : String
  value : List Task
  ttlSeconds : Nat
deriving DecidableEq, Repr

/-- Shared mutable state: the Mongo task collection, the Redis cache contents,
and the next fresh document id. -/
structure ServiceState where
  repo : List Task
  cache : List CacheEntry
  nextId : Nat
deriving DecidableEq, Repr

/-- Error taxonomy of src/utils/errors.js, restricted to what task.service.js
raises. A conflict carries `error.details = {existingTaskId, duplicateReason}`. -/
inductive SvcError where
  | validation (message : String)
  | notFound (message : String)
  | conflict (message : String) (existingTaskId : Nat) (duplicateReason : String)
  | database (message : String)
deriving DecidableEq, Repr

/-- Key builder `redisService.generateTasksCacheKey(userId)` (redis.service.js line 58). -/
def generateTasksCacheKey (userId : String) : String := "tasks:" ++ userId

/-- Read path `redisService.get`: a successful GET of an absent key yields null. -/
def cacheLookup (cache : List CacheEntry) (key : String) : Option (List Task) :=
  (cache.find? (fun e => e.key == key)).map (fun e => e.value)

/-- Write path `redisService.set`: SET with EX overwrites the key. -/
def cacheSet (cache : List CacheEntry) (key : String) (value : List Task)
    (ttl : Nat) : List CacheEntry :=
  ⟨key, value, ttl⟩ :: cache.filter (fun e => !(e.key == key))

/-- Delete path `redisService.del`. -/
def cacheDel (cache : List CacheEntry) (key : String) : List CacheEntry :=
  cache.filter (fun e => !(e.key == key))

/-- Model of `TaskService.invalidateUserCache(userId)` (task.service.js lines 225-227). -/
def invalidateUserCache (userId : String) (cache : List CacheEntry) : List CacheEntry :=
  cacheDel cache (generateTasksCacheKey userId)

/-- Insertion step for the Mongo sort `{createdAt: -1}`. -/
def insertByCreatedDesc (t : Task) : List Task → List Task
  | [] => [t]
  | x :: xs => if t.createdAt > x.createdAt then t :: x :: xs else x :: insertByCreatedDesc t xs

/-- Stable descending sort by `createdAt`. -/
def sortByCreatedDesc : List Task → List Task
  | [] => []
  | x :: xs => insertByCreatedDesc x (sortByCreatedDesc xs)

/-- Repository query `Task.find({owner: userId}).sort({createdAt: -1})` (task.service.js line 20). -/
def queryTasksByOwner (userId : String) (repo : List Task) : List Task :=
  sortByCreatedDesc (repo.filter (fun t => t.owner == userId))

/-- Model of `TaskService.getTasks(userId)` (task.service.js lines 11-26). `getFault` and
`setFault` inject Redis failures, which redis.service.js swallows: a failed GET
behaves as a miss, a failed SET skips the population. `repoFault` injects a
`Task.find` failure, which the catch turns into `DatabaseError`. The returned
state is the input state on every path that does not populate the cache. -/
def getTasks (getFault setFault repoFault : Bool) (userId : String) (st : ServiceState) :
    Except SvcError (List Task) × ServiceState :=
  let cacheKey := generateTasksCacheKey userId
  match (if getFault then none else cacheLookup st.cache cacheKey) with
  | some cachedTasks => (.ok cachedTasks, st)
  | none =>
    if repoFault then (.error (.database "Error fetching tasks"), st)
    else
      let tasks := queryTasksByOwner userId st.repo
      ( .ok tasks,
        { st with cache := if setFault then st.cache else cacheSet st.cache cacheKey tasks 3600 } )

/-- Request payload of `createTask`. `description = none` models an absent property
and `some ""` an empty string; `dueDate` is the result of `new Date(taskData.dueDate)`
(`none` when invalid); `status = none` models an absent property. -/
structure TaskInput where
  title : String
  description : Option String
  dueDate : Option Int
  status : Option Status
deriving DecidableEq, Repr

/-- Normalization `taskData.description || null`: an absent or empty-string description is
normalized to null for the exact-duplicate query (task.service.js line 43). -/
def normDesc : Option String → Option String
  | none => none
  | some s => if s == "" then none else some s

/-- Twenty-four hours in milliseconds. -/
def dayMs : Int := 24 * 60 * 60 * 1000

/-- Exact-duplicate query filter (task.service.js lines 40-46). -/
def exactPred (userId : String) (input : TaskInput) (due : Int) (t : Task) : Bool :=
  decide (t.owner = userId) && decide (t.title = input.title)
    && decide (t.description = normDesc input.description)
    && decide (t.dueDate = due)
    && decide (t.status = input.status.getD .pending)

/-- Near-duplicate query filter (task.service.js lines 58-66): same owner and title,
due date within the inclusive ±24h window, status literally `pending`. -/
def similarPred (userId : String) (input : TaskInput) (due : Int) (t : Task) : Bool :=
  decide (t.owner = userId) && decide (t.title = input.title)
    && decide (due - dayMs ≤ t.dueDate) && decide (t.dueDate ≤ due + dayMs)
    && decide (t.status = Status.pending)

/-- Model of `TaskService.createTask(taskData, userId)` (task.service.js lines 28-105).
On the near-duplicate branch the source guard
`similarTask._id.toString() !== exactDuplicate?._id.toString()` is always true,
because `exactDuplicate` is necessarily null on that branch, so the guard
compares a string against undefined. -/
def createTask (input : TaskInput) (userId : String) (now : Int) (st : ServiceState) :
    Except SvcError Task × ServiceState :=
  match input.dueDate with
  | none => (.error (.validation "Invalid due date format"), st)
  | some due =>
    match st.repo.find? (exactPred userId input due) with
    | some exactDuplicate =>
        (.error (.conflict "Duplicate task found" exactDuplicate.id "Exact task match"), st)
    | none =>
      match st.repo.find? (similarPred userId input due) with
      | some similarTask =>
          (.error (.conflict "Similar task exists" similarTask.id "Same title and timeframe"), st)
      | none =>
          let task : Task :=
            { id := st.nextId
              title := input.title
              description := input.description
              dueDate := due
              status := input.status.getD .pending
              owner := userId
              createdAt := now }
          ( .ok task,
            { repo := st.repo ++ [task]
              cache := invalidateUserCache userId st.cache
              nextId := st.nextId + 1 } )

/-- Update payload of `updateTask`. An outer `some` means the property is present;
`hasInvalidField` models a key outside the allow-list
{title, description, status, dueDate}. `dueDate = some none` is a present but
unparseable date. -/
structure TaskUpdates where
  title : Option String
  description : Option (Option String)
  status : Option Status
  dueDate : Option (Option Int)
  hasInvalidField : Bool
deriving DecidableEq, Repr

/-- Replace the first element matched by `p` (the document found by `findOne`,
mutated by `Object.assign` and persisted by `save`). -/
def replaceP (p : Task → Bool) (new : Task) : List Task → List Task
  | [] => []
  | x :: xs => if p x then new :: xs else x :: replaceP p new xs

/-- Ownership-scoped lookup filter `{_id: taskId, owner: userId}`. -/
def ownedPred (taskId : Nat) (userId : String) (t : Task) : Bool :=
  decide (t.id = taskId) && decide (t.owner = userId)

/-- Model of `TaskService.updateTask(taskId, updates, userId)` (task.service.js lines 107-169). -/
def updateTask (upd : TaskUpdates) (taskId : Nat) (userId : String) (st : ServiceState) :
    Except SvcError Task × ServiceState :=
  if upd.hasInvalidField then (.error (.validation "Invalid updates"), st)
  else
    match st.repo.find? (ownedPred taskId userId) with
    | none => (.error (.notFound "Task not found"), st)
    | some task =>
      match upd.dueDate with
      | some none => (.error (.validation "Invalid due date format"), st)
      | _ =>
        let task' : Task :=
          { task with
            title := upd.title.getD task.title
            description := (match upd.description with
              | some d => d
              | none => task.description)
            status := upd.status.getD task.status
            dueDate := (match upd.dueDate with
              | some (some d) => d
              | _ => task.dueDate) }
        ( .ok task',
          { st with
            repo := replaceP (ownedPred taskId userId) task' st.repo
            cache := invalidateUserCache userId st.cache } )

/-- Model of `TaskService.deleteTask(taskId, userId)` (task.service.js lines 171-190):
`findOneAndDelete({_id: taskId, owner: userId})`. -/
def deleteTask (taskId : Nat) (userId : String) (st : ServiceState) :
    Except SvcError Task × ServiceState :=
  match st.repo.find? (ownedPred taskId userId) with
  | none => (.error (.notFound "Task not found"), st)
  | some task =>
    ( .ok task,
      { st with
        repo := st.repo.eraseP (ownedPred taskId userId)
        cache := invalidateUserCache userId st.cache } )

/-- Filter payload of `getFilteredTasks`; `status` is the raw query string. -/
structure TaskFilters where
  status : Option String
  dueDate : Option (Option Int)
deriving DecidableEq, Repr

/-- Membership test against `[pending, completed]` (task.service.js line 197). -/
def statusOfString (s : String) : Option Status :=
  if s == "pending" then some .pending
  else if s == "completed" then some .completed
  else none

/-- Repository query `Task.find(match).sort({createdAt: -1})` for the built match object. -/
def filteredQuery (userId : String) (statusC : Option Status) (dueC : Option Int)
    (repo : List Task) : List Task :=
  sortByCreatedDesc (repo.filter (fun t =>
    decide (t.owner = userId)
    && (match statusC with
        | some s => decide (t.status = s)
        | none => true)
    && (match dueC with
        | some d => decide (t.dueDate ≤ d)
        | none => true)))

/-- Due-date step of `getFilteredTasks` (task.service.js lines 203-216), reached
only after the status filter was accepted or absent. -/
def filteredWithDueDate (statusC : Option Status) (f : TaskFilters) (userId : String)
    (st : ServiceState) : Except SvcError (List Task) :=
  match f.dueDate with
  | none => .ok (filteredQuery userId statusC none st.repo)
  | some none => .error (.validation "Invalid due date format")
  | some (some d) => .ok (filteredQuery userId statusC (some d) st.repo)

/-- Model of `TaskService.getFilteredTasks(filters, userId)` (task.service.js lines 192-223). -/
def getFilteredTasks (f : TaskFilters) (userId : String) (st : ServiceState) :
    Except SvcError (List Task) :=
  match f.status with
  | none => filteredWithDueDate none f userId st
  | some s =>
    match statusOfString s with
    | none => .ok []
    | some c => filteredWithDueDate (some c) f userId st

end TaskService

namespace TaskService

/-! ### Task service helper lemmas -/

lemma mem_insertByCreatedDesc {t a : Task} {l : List Task} :
    t ∈ insertByCreatedDesc a l ↔ t = a ∨ t ∈ l := by
  induction l with
  | nil => simp [insertByCreatedDesc]
  | cons x xs ih =>
    by_cases h : a.createdAt > x.createdAt
    · simp [insertByCreatedDesc, h]
    · simp [insertByCreatedDesc, h, ih]
      tauto

lemma mem_sortByCreatedDesc {t : Task} {l : List Task} :
    t ∈ sortByCreatedDesc l ↔ t ∈ l := by
  induction l with
  | nil => simp [sortByCreatedDesc]
  | cons x xs ih => simp [sortByCreatedDesc, mem_insertByCreatedDesc, ih]

lemma mem_queryTasksByOwner {t : Task} {uid : String} {repo : List Task} :
    t ∈ queryTasksByOwner uid repo ↔ t ∈ repo ∧ t.owner = uid := by
  simp [queryTasksByOwner, mem_sortByCreatedDesc, List.mem_filter]

lemma find?_append_none {α : Type} {p : α → Bool} {l₁ l₂ : List α}
    (h : l₁.find? p = none) : (l₁ ++ l₂).find? p = l₂.find? p := by
  induction l₁ with
  | nil => simp
  | cons x xs ih =>
    cases hx : p x with
    | true => simp [List.find?_cons, hx] at h
    | false =>
      simp only [List.cons_append, List.find?_cons, hx] at h ⊢
      exact ih h

lemma cacheLookup_cacheDel_self {cache : List CacheEntry} {key : String} :
    cacheLookup (cacheDel cache key) key = none := by
  have h : (cacheDel cache key).find? (fun e => e.key == key) = none := by
    rw [List.find?_eq_none]
    intro e he
    have h2 := (List.mem_filter.mp he).2
    simp only [Bool.not_eq_eq_eq_not, Bool.not_true] at h2
    simp [h2]
  simp [cacheLookup, h]

lemma mem_replaceP {p : Task → Bool} {new a : Task} {l : List Task}
    (h : l.find? p = some a) : new ∈ replaceP p new l := by
  induction l with
  | nil => simp [List.find?] at h
  | cons x xs ih =>
    cases hx : p x with
    | true => simp [replaceP, hx]
    | false =>
      simp only [List.find?_cons, hx] at h
      simp only [replaceP, hx, Bool.false_eq_true, if_false, List.mem_cons]
      exact Or.inr (ih h)

lemma getTasks_miss_fresh {uid : String} {st : ServiceState}
    (h : cacheLookup st.cache (generateTasksCacheKey uid) = none) :
    getTasks false false false uid st =
      (.ok (queryTasksByOwner uid st.repo),
       { st with cache := (cacheSet st.cache (generateTasksCacheKey uid)
           (queryTasksByOwner uid st.repo) 3600) }) := by
  simp [getTasks, h]

end TaskService

namespace TaskService

lemma createTask_ok {input : TaskInput} {uid : String} {now : Int}
    {st : ServiceState} {t : Task} {st' : ServiceState}
    (h : createTask input uid now st = (.ok t, st')) :
    ∃ due, input.dueDate = some due
      ∧ st.repo.find? (exactPred uid input due) = none
      ∧ st.repo.find? (similarPred uid input due) = none
      ∧ t = { id := st.nextId, title := input.title, description := input.description,
              dueDate := due, status := input.status.getD .pending, owner := uid,
              createdAt := now }
      ∧ st' = { repo := st.repo ++ [t],
                cache := invalidateUserCache uid st.cache,
                nextId := st.nextId + 1 } := by
  unfold createTask at h
  split at h
  · exact absurd h (by simp)
  · rename_i due hdue
    split at h
    · exact absurd h (by simp)
    · rename_i hex
      split at h
      · exact absurd h (by simp)
      · rename_i hsim
        simp only [Prod.mk.injEq, Except.ok.injEq] at h
        obtain ⟨h1, h2⟩ := h
        exact ⟨due, hdue, hex, hsim, h1.symm, by rw [h1] at h2; exact h2.symm⟩

lemma updateTask_ok {upd : TaskUpdates} {taskId : Nat} {uid : String}
    {st : ServiceState} {t : Task} {st' : ServiceState}
    (h : updateTask upd taskId uid st = (.ok t, st')) :
    upd.hasInvalidField = false
    ∧ ∃ task, st.repo.find? (ownedPred taskId uid) = some task
      ∧ t.owner = uid
      ∧ st' = { st with repo := replaceP (ownedPred taskId uid) t st.repo,
                        cache := invalidateUserCache uid st.cache } := by
  unfold updateTask at h
  split at h
  · exact absurd h (by simp)
  · rename_i hinv
    split at h
    · exact absurd h (by simp)
    · rename_i task hfind
      have howner : task.owner = uid := by
        have hp := List.find?_some hfind
        simp only [ownedPred, Bool.and_eq_true, decide_eq_true_eq] at hp
        exact hp.2
      split at h
      · exact absurd h (by simp)
      · simp only [Prod.mk.injEq, Except.ok.injEq] at h
        obtain ⟨h1, h2⟩ := h
        refine ⟨by simpa using hinv, task, hfind, ?_, ?_⟩
        · rw [← h1]
          exact howner
        · rw [h1] at h2
          exact h2.symm

lemma deleteTask_ok {taskId : Nat} {uid : String}
    {st : ServiceState} {t : Task} {st' : ServiceState}
    (h : deleteTask taskId uid st = (.ok t, st')) :
    st.repo.find? (ownedPred taskId uid) = some t
    ∧ t.owner = uid
    ∧ st' = { st with repo := st.repo.eraseP (ownedPred taskId uid),
                      cache := invalidateUserCache uid st.cache } := by
  unfold deleteTask at h
  split at h
  · exact absurd h (by simp)
  · rename_i task hfind
    simp only [Prod.mk.injEq, Except.ok.injEq] at h
    obtain ⟨h1, h2⟩ := h
    have howner : task.owner = uid := by
      have hp := List.find?_some hfind
      simp only [ownedPred, Bool.and_eq_true, decide_eq_true_eq] at hp
      exact hp.2
    subst h1
    exact ⟨hfind, howner, h2.symm⟩

end TaskService

namespace TaskService

/-! ### Claims C3, C6 -/

/-- Claim C3: after any of createTask, updateTask, deleteTask succeeds for an
owner, the cache key `tasks:<ownerId>` is gone (invalidation runs on every successful
mutation), so the immediately following fault-free `getTasks` misses the cache,
refetches `Task.find({owner}).sort({createdAt: -1})` from the post-mutation
repository, and returns a list reflecting the mutation. -/
theorem c3_mutations_invalidate_cache (uid : String) (st : ServiceState) :
    (∀ input now t st', createTask input uid now st = (.ok t, st') →
        cacheLookup st'.cache (generateTasksCacheKey uid) = none
        ∧ (getTasks false false false uid st').1 = .ok (queryTasksByOwner uid st'.repo)
        ∧ t ∈ queryTasksByOwner uid st'.repo)
    ∧ (∀ upd taskId t st', updateTask upd taskId uid st = (.ok t, st') →
        cacheLookup st'.cache (generateTasksCacheKey uid) = none
        ∧ (getTasks false false false uid st').1 = .ok (queryTasksByOwner uid st'.repo)
        ∧ t ∈ queryTasksByOwner uid st'.repo)
    ∧ (∀ taskId t st', deleteTask taskId uid st = (.ok t, st') →
        cacheLookup st'.cache (generateTasksCacheKey uid) = none
        ∧ (getTasks false false false uid st').1 = .ok (queryTasksByOwner uid st'.repo)
        ∧ st'.repo = st.repo.eraseP (ownedPred taskId uid)) := by
  refine ⟨?_, ?_, ?_⟩
  · intro input now t st' h
    obtain ⟨due, hdue, hex, hsim, ht, hst'⟩ := createTask_ok h
    have hnone : cacheLookup st'.cache (generateTasksCacheKey uid) = none := by
      rw [hst']
      unfold invalidateUserCache
      exact cacheLookup_cacheDel_self
    refine ⟨hnone, ?_, ?_⟩
    · rw [getTasks_miss_fresh hnone]
    · rw [mem_queryTasksByOwner]
      constructor
      · rw [hst']
        simp
      · rw [ht]
  · intro upd taskId t st' h
    obtain ⟨hinv, task, hfind, howner, hst'⟩ := updateTask_ok h
    have hnone : cacheLookup st'.cache (generateTasksCacheKey uid) = none := by
      rw [hst']
      unfold invalidateUserCache
      exact cacheLookup_cacheDel_self
    refine ⟨hnone, ?_, ?_⟩
    · rw [getTasks_miss_fresh hnone]
    · rw [mem_queryTasksByOwner]
      refine ⟨?_, howner⟩
      rw [hst']
      exact mem_replaceP hfind
  · intro taskId t st' h
    obtain ⟨hfind, howner, hst'⟩ := deleteTask_ok h
    have hnone : cacheLookup st'.cache (generateTasksCacheKey uid) = none := by
      rw [hst']
      unfold invalidateUserCache
      exact cacheLookup_cacheDel_self
    refine ⟨hnone, ?_, ?_⟩
    · rw [getTasks_miss_fresh hnone]
    · rw [hst']

theorem c3_mutations_invalidate_cache_witness :
    cacheLookup (⟨[⟨0, "w", none, 1, .pending, "u", 2⟩], [], 1⟩ : ServiceState).cache
        (generateTasksCacheKey "u") = none
    ∧ (getTasks false false false "u" ⟨[⟨0, "w", none, 1, .pending, "u", 2⟩], [], 1⟩).1 =
        .ok (queryTasksByOwner "u"
          (⟨[⟨0, "w", none, 1, .pending, "u", 2⟩], [], 1⟩ : ServiceState).repo)
    ∧ (⟨0, "w", none, 1, .pending, "u", 2⟩ : Task) ∈
        queryTasksByOwner "u"
          (⟨[⟨0, "w", none, 1, .pending, "u", 2⟩], [], 1⟩ : ServiceState).repo :=
  (c3_mutations_invalidate_cache "u" ⟨[], [], 0⟩).1 ⟨"w", none, some 1, none⟩ 2
    ⟨0, "w", none, 1, .pending, "u", 2⟩ ⟨[⟨0, "w", none, 1, .pending, "u", 2⟩], [], 1⟩
    (by rfl)

/-- Claim C6: updateTask and deleteTask look the task up with the filter
`{_id: taskId, owner: userId}`. When no task matches — whether the id does not
exist at all or the task belongs to a different owner — both return exactly the
not-found outcome, return no task data, and leave the state (hence the foreign
task) unmodified. -/
theorem c6_ownership_scoped_mutations (upd : TaskUpdates) (taskId : Nat) (uid : String)
    (st : ServiceState)
    (hupd : upd.hasInvalidField = false)
    (hno : ∀ t ∈ st.repo, t.id = taskId → t.owner ≠ uid) :
    updateTask upd taskId uid st = (.error (.notFound "Task not found"), st)
    ∧ deleteTask taskId uid st = (.error (.notFound "Task not found"), st) := by
  have hfind : st.repo.find? (ownedPred taskId uid) = none := by
    rw [List.find?_eq_none]
    intro t ht
    simp only [ownedPred, Bool.and_eq_true, decide_eq_true_eq, not_and]
    exact hno t ht
  constructor
  · simp [updateTask, hupd, hfind]
  · simp [deleteTask, hfind]

theorem c6_ownership_scoped_mutations_witness :
    updateTask ⟨none, none, none, none, false⟩ 1 "alice"
        ⟨[⟨1, "t", none, 0, .pending, "bob", 0⟩], [], 2⟩
      = (.error (.notFound "Task not found"),
         ⟨[⟨1, "t", none, 0, .pending, "bob", 0⟩], [], 2⟩)
    ∧ deleteTask 1 "alice" ⟨[⟨1, "t", none, 0, .pending, "bob", 0⟩], [], 2⟩
      = (.error (.notFound "Task not found"),
         ⟨[⟨1, "t", none, 0, .pending, "bob", 0⟩], [], 2⟩) :=
  c6_ownership_scoped_mutations ⟨none, none, none, none, false⟩ 1 "alice"
    ⟨[⟨1, "t", none, 0, .pending, "bob", 0⟩], [], 2⟩ rfl (by decide)

end TaskService

namespace TaskService

/-! ### Claims C4, C5 -/

/-- Claim C4: the exact-duplicate filter compares owner, title, normalized
description (absent treated as null), due date and defaulted status; when a task
of the same owner matches it, creation is rejected with the conflict
`"Exact task match"` carrying that existing id — before the near-duplicate rule is
even consulted — while the same payload under an owner who owns no task succeeds. -/
theorem c4_exact_duplicate_conflict (input : TaskInput) (uid uid2 : String) (now : Int)
    (st : ServiceState) (due : Int) (hd : input.dueDate = some due) :
    (∀ t : Task, exactPred uid input due t = true ↔
        (t.owner = uid ∧ t.title = input.title
          ∧ t.description = normDesc input.description
          ∧ t.dueDate = due ∧ t.status = input.status.getD .pending))
    ∧ (∀ t0, st.repo.find? (exactPred uid input due) = some t0 →
        createTask input uid now st =
          (.error (.conflict "Duplicate task found" t0.id "Exact task match"), st))
    ∧ ((∀ t ∈ st.repo, t.owner ≠ uid2) →
        ∃ nt st', createTask input uid2 now st = (.ok nt, st')) := by
  refine ⟨?_, ?_, ?_⟩
  · intro t
    simp [exactPred, Bool.and_eq_true, decide_eq_true_eq, and_assoc]
  · intro t0 h
    simp [createTask, hd, h]
  · intro hno
    have hex : st.repo.find? (exactPred uid2 input due) = none := by
      rw [List.find?_eq_none]
      intro t ht
      simp only [exactPred, Bool.and_eq_true, decide_eq_true_eq]
      rintro ⟨⟨⟨⟨h1, -⟩, -⟩, -⟩, -⟩
      exact hno t ht h1
    have hsim : st.repo.find? (similarPred uid2 input due) = none := by
      rw [List.find?_eq_none]
      intro t ht
      simp only [similarPred, Bool.and_eq_true, decide_eq_true_eq]
      rintro ⟨⟨⟨⟨h1, -⟩, -⟩, -⟩, -⟩
      exact hno t ht h1
    refine ⟨⟨st.nextId, input.title, input.description, due, input.status.getD .pending,
        uid2, now⟩,
      ⟨st.repo ++ [⟨st.nextId, input.title, input.description, due,
        input.status.getD .pending, uid2, now⟩],
       invalidateUserCache uid2 st.cache, st.nextId + 1⟩, ?_⟩
    simp [createTask, hd, hex, hsim]

theorem c4_exact_duplicate_conflict_witness :
    createTask ⟨"Pay rent", none, some 100, some .pending⟩ "U1" 5
        ⟨[⟨0, "Pay rent", none, 100, .pending, "U1", 0⟩], [], 1⟩ =
      (.error (.conflict "Duplicate task found" 0 "Exact task match"),
       ⟨[⟨0, "Pay rent", none, 100, .pending, "U1", 0⟩], [], 1⟩)
    ∧ ∃ nt st', createTask ⟨"Pay rent", none, some 100, some .pending⟩ "U2" 5
        ⟨[⟨0, "Pay rent", none, 100, .pending, "U1", 0⟩], [], 1⟩ = (.ok nt, st') :=
  ⟨(c4_exact_duplicate_conflict ⟨"Pay rent", none, some 100, some .pending⟩ "U1" "U2" 5
      ⟨[⟨0, "Pay rent", none, 100, .pending, "U1", 0⟩], [], 1⟩ 100 rfl).2.1
      ⟨0, "Pay rent", none, 100, .pending, "U1", 0⟩ (by decide),
   (c4_exact_duplicate_conflict ⟨"Pay rent", none, some 100, some .pending⟩ "U2" "U2" 5
      ⟨[⟨0, "Pay rent", none, 100, .pending, "U1", 0⟩], [], 1⟩ 100 rfl).2.2 (by decide)⟩

/-- Claim C5: with no exact match in the repository, creation is rejected with the
conflict `"Same title and timeframe"` exactly when some existing task of the same
owner is pending, has the same title, and a due date within ±24 hours inclusive of
the candidate — independent of description; the conflict carries the matched id,
and a single candidate exactly 24 hours plus 1 millisecond away is admitted. -/
theorem c5_near_duplicate_window (input : TaskInput) (uid : String) (due : Int)
    (hd : input.dueDate = some due) :
    (∀ t : Task, similarPred uid input due t = true ↔
        (t.owner = uid ∧ t.title = input.title
          ∧ due - dayMs ≤ t.dueDate ∧ t.dueDate ≤ due + dayMs
          ∧ t.status = .pending))
    ∧ (∀ (st : ServiceState) (now : Int),
        st.repo.find? (exactPred uid input due) = none →
        ((∃ rid, (createTask input uid now st).1 =
            .error (.conflict "Similar task exists" rid "Same title and timeframe"))
          ↔ ∃ t ∈ st.repo, similarPred uid input due t = true))
    ∧ (∀ (s : Task) (st : ServiceState) (now : Int),
        st.repo.find? (exactPred uid input due) = none →
        st.repo.find? (similarPred uid input due) = some s →
        createTask input uid now st =
          (.error (.conflict "Similar task exists" s.id "Same title and timeframe"), st))
    ∧ (∀ (t : Task) (cache : List CacheEntry) (n : Nat) (now : Int),
        t.dueDate = due + dayMs + 1 →
        ∃ nt st', createTask input uid now ⟨[t], cache, n⟩ = (.ok nt, st')) := by
  refine ⟨?_, ?_, ?_, ?_⟩
  · intro t
    simp [similarPred, Bool.and_eq_true, decide_eq_true_eq, and_assoc]
  · intro st now hex
    constructor
    · rintro ⟨rid, h⟩
      cases hs : st.repo.find? (similarPred uid input due) with
      | none => simp [createTask, hd, hex, hs] at h
      | some s => exact ⟨s, List.mem_of_find?_eq_some hs, List.find?_some hs⟩
    · rintro ⟨t, ht, hp⟩
      have hks : (st.repo.find? (similarPred uid input due)).isSome :=
        List.find?_isSome.mpr ⟨t, ht, hp⟩
      obtain ⟨s, hs⟩ := Option.isSome_iff_exists.mp hks
      exact ⟨s.id, by simp [createTask, hd, hex, hs]⟩
  · intro s st now hex hs
    simp [createTask, hd, hex, hs]
  · intro t cache n now ht
    have hne : t.dueDate ≠ due := by
      rw [ht]
      unfold dayMs
      omega
    have hgt : ¬(t.dueDate ≤ due + dayMs) := by
      rw [ht]
      omega
    have h1 : exactPred uid input due t = false := by
      simp [exactPred, hne]
    have h2 : similarPred uid input due t = false := by
      simp [similarPred, hgt]
    have hex : ([t] : List Task).find? (exactPred uid input due) = none := by
      simp [List.find?, h1]
    have hsim : ([t] : List Task).find? (similarPred uid input due) = none := by
      simp [List.find?, h2]
    refine ⟨⟨n, input.title, input.description, due, input.status.getD .pending, uid, now⟩,
      ⟨[t] ++ [⟨n, input.title, input.description, due, input.status.getD .pending,
        uid, now⟩],
       invalidateUserCache uid cache, n + 1⟩, ?_⟩
    simp [createTask, hd, hex, hsim]

theorem c5_near_duplicate_window_witness :
    createTask ⟨"T", some "other words", some 50, some .pending⟩ "u" 7
        ⟨[⟨0, "T", none, 100, .pending, "u", 0⟩], [], 1⟩ =
      (.error (.conflict "Similar task exists" 0 "Same title and timeframe"),
       ⟨[⟨0, "T", none, 100, .pending, "u", 0⟩], [], 1⟩)
    ∧ ∃ nt st', createTask ⟨"T", some "other words", some 50, some .pending⟩ "u" 7
        ⟨[⟨0, "T", none, 50 + dayMs + 1, .pending, "u", 0⟩], [], 1⟩ = (.ok nt, st') :=
  ⟨(c5_near_duplicate_window ⟨"T", some "other words", some 50, some .pending⟩ "u" 50
      rfl).2.2.1 ⟨0, "T", none, 100, .pending, "u", 0⟩
      ⟨[⟨0, "T", none, 100, .pending, "u", 0⟩], [], 1⟩ 7 (by decide) (by decide),
   (c5_near_duplicate_window ⟨"T", some "other words", some 50, some .pending⟩ "u" 50
      rfl).2.2.2 ⟨0, "T", none, 50 + dayMs + 1, .pending, "u", 0⟩ [] 1 7 rfl⟩

end TaskService

namespace TaskService

/-! ### Claims C7, C8, C10 -/

/-- Claim C7: getTasks checks the cache under `tasks:<ownerId>`; a hit returns the
cached list verbatim with no repository access (the result is the same for every
repository fault state); a miss queries the owner-scoped repository sorted by
creation descending, populates the cache with TTL 3600 and returns the list; a
failed cache read behaves as a miss and a failed cache write only skips the
population, while a repository failure surfaces as the database error. -/
theorem c7_getTasks_read_through (uid : String) (st : ServiceState) :
    (∀ v, cacheLookup st.cache (generateTasksCacheKey uid) = some v →
        ∀ setFault repoFault, getTasks false setFault repoFault uid st = (.ok v, st))
    ∧ (∀ getFault,
        (getFault = true ∨ cacheLookup st.cache (generateTasksCacheKey uid) = none) →
        getTasks getFault false false uid st =
          (.ok (queryTasksByOwner uid st.repo),
           { st with cache := (cacheSet st.cache (generateTasksCacheKey uid)
               (queryTasksByOwner uid st.repo) 3600) }))
    ∧ (∀ getFault,
        (getFault = true ∨ cacheLookup st.cache (generateTasksCacheKey uid) = none) →
        getTasks getFault true false uid st = (.ok (queryTasksByOwner uid st.repo), st))
    ∧ (∀ getFault setFault,
        (getFault = true ∨ cacheLookup st.cache (generateTasksCacheKey uid) = none) →
        getTasks getFault setFault true uid st =
          (.error (.database "Error fetching tasks"), st)) := by
  refine ⟨?_, ?_, ?_, ?_⟩
  · intro v hv setFault repoFault
    simp [getTasks, hv]
  · rintro gf (h | h)
    · subst h
      simp [getTasks]
    · cases gf <;> simp [getTasks, h]
  · rintro gf (h | h)
    · subst h
      simp [getTasks]
    · cases gf <;> simp [getTasks, h]
  · rintro gf setFault (h | h)
    · subst h
      simp [getTasks]
    · cases gf <;> simp [getTasks, h]

theorem c7_getTasks_read_through_witness :
    getTasks false true true "u" ⟨[⟨0, "x", none, 9, .completed, "v", 4⟩],
        [⟨"tasks:u", [], 3600⟩], 1⟩ =
      (.ok [], ⟨[⟨0, "x", none, 9, .completed, "v", 4⟩], [⟨"tasks:u", [], 3600⟩], 1⟩) :=
  (c7_getTasks_read_through "u" ⟨[⟨0, "x", none, 9, .completed, "v", 4⟩],
      [⟨"tasks:u", [], 3600⟩], 1⟩).1 [] (by decide) true true

lemma mem_filteredQuery {t : Task} {uid : String} {statusC : Option Status}
    {dueC : Option Int} {repo : List Task} :
    t ∈ filteredQuery uid statusC dueC repo ↔
      (t ∈ repo ∧ t.owner = uid
        ∧ (∀ s, statusC = some s → t.status = s)
        ∧ (∀ d, dueC = some d → t.dueDate ≤ d)) := by
  cases statusC <;> cases dueC <;>
    simp [filteredQuery, mem_sortByCreatedDesc, List.mem_filter, and_assoc]

lemma filteredWithDueDate_ok_mem {statusC : Option Status} {f : TaskFilters}
    {uid : String} {st : ServiceState} {l : List Task}
    (hl : filteredWithDueDate statusC f uid st = .ok l) {t : Task} (ht : t ∈ l) :
    t.owner = uid ∧ ∀ d, f.dueDate = some (some d) → t.dueDate ≤ d := by
  unfold filteredWithDueDate at hl
  cases hdd : f.dueDate with
  | none =>
    rw [hdd] at hl
    obtain rfl : filteredQuery uid statusC none st.repo = l := by simpa using hl
    have hm := mem_filteredQuery.mp ht
    refine ⟨hm.2.1, ?_⟩
    intro d hd
    simp at hd
  | some od =>
    cases od with
    | none =>
      rw [hdd] at hl
      exact absurd hl (by simp)
    | some d =>
      rw [hdd] at hl
      obtain rfl : filteredQuery uid statusC (some d) st.repo = l := by simpa using hl
      have hm := mem_filteredQuery.mp ht
      refine ⟨hm.2.1, ?_⟩
      intro d2 hd2
      obtain rfl : d = d2 := by simpa using hd2
      exact hm.2.2.2 d rfl

/-- Claim C8: getFilteredTasks always scopes the query to the owner; a present
status filter outside {pending, completed} short-circuits to an empty ok result;
a present unparseable due date (when the status filter did not short-circuit)
raises the validation error; a parsed due date bounds every returned task by
`dueDate ≤ d`. -/
theorem c8_getFilteredTasks_filters (f : TaskFilters) (uid : String) (st : ServiceState) :
    (∀ s, f.status = some s → statusOfString s = none →
        getFilteredTasks f uid st = .ok [])
    ∧ ((f.status = none ∨ ∃ s c, f.status = some s ∧ statusOfString s = some c) →
        f.dueDate = some none →
        getFilteredTasks f uid st = .error (.validation "Invalid due date format"))
    ∧ (∀ l, getFilteredTasks f uid st = .ok l →
        ∀ t ∈ l, t.owner = uid ∧ ∀ d, f.dueDate = some (some d) → t.dueDate ≤ d) := by
  refine ⟨?_, ?_, ?_⟩
  · intro s hs hn
    simp [getFilteredTasks, hs, hn]
  · rintro (h | ⟨s, c, hs, hc⟩) hdd
    · simp [getFilteredTasks, h, filteredWithDueDate, hdd]
    · simp [getFilteredTasks, hs, hc, filteredWithDueDate, hdd]
  · intro l hl t ht
    unfold getFilteredTasks at hl
    cases hf : f.status with
    | none =>
      rw [hf] at hl
      exact filteredWithDueDate_ok_mem hl ht
    | some s =>
      rw [hf] at hl
      have hl2 : (match statusOfString s with
          | none => (.ok [] : Except SvcError (List Task))
          | some c => filteredWithDueDate (some c) f uid st) = .ok l := hl
      cases hcs : statusOfString s with
      | none =>
        rw [hcs] at hl2
        obtain rfl : ([] : List Task) = l := by simpa using hl2
        cases ht
      | some c =>
        rw [hcs] at hl2
        exact filteredWithDueDate_ok_mem hl2 ht

theorem c8_getFilteredTasks_filters_witness :
    getFilteredTasks ⟨some "archived", some (some 3)⟩ "u"
        ⟨[⟨0, "x", none, 9, .pending, "u", 4⟩], [], 1⟩ = .ok [] :=
  (c8_getFilteredTasks_filters ⟨some "archived", some (some 3)⟩ "u"
      ⟨[⟨0, "x", none, 9, .pending, "u", 4⟩], [], 1⟩).1 "archived" rfl (by decide)

/-- Claim C10: in createTask an absent or empty-string description is normalized
to null for the exact-duplicate comparison, and an absent status defaults to
pending both in the comparisons and in the persisted task; hence creating a task
with description `""` and no status right after an otherwise identical task with
no description and status pending is rejected as an exact duplicate of it. -/
theorem c10_create_normalization (title : String) (d : Int) (uid : String)
    (st : ServiceState) (now now2 : Int) :
    (normDesc none = none ∧ normDesc (some "") = none)
    ∧ (∀ (input : TaskInput) (t : Task) (st' : ServiceState), input.status = none →
        createTask input uid now st = (.ok t, st') → t.status = .pending)
    ∧ (∀ t st', createTask ⟨title, none, some d, some .pending⟩ uid now st = (.ok t, st') →
        createTask ⟨title, some "", some d, none⟩ uid now2 st' =
          (.error (.conflict "Duplicate task found" t.id "Exact task match"), st')) := by
  refine ⟨⟨rfl, rfl⟩, ?_, ?_⟩
  · intro input t st' hstat h
    obtain ⟨due, hdue, hex, hsim, ht, hst'⟩ := createTask_ok h
    rw [ht]
    simp [hstat]
  · intro t st' h
    obtain ⟨due, hdue, hex, hsim, ht, hst'⟩ := createTask_ok h
    have hdd : d = due := by simpa using hdue
    subst hdd
    have hfun : exactPred uid ⟨title, some "", some d, none⟩ d =
        exactPred uid ⟨title, none, some d, some .pending⟩ d := by
      funext x
      simp [exactPred, normDesc]
    have hexact : exactPred uid ⟨title, none, some d, some .pending⟩ d t = true := by
      rw [ht]
      simp [exactPred, normDesc]
    have hrepo : st'.repo = st.repo ++ [t] := by
      rw [hst']
    have hfind : st'.repo.find? (exactPred uid ⟨title, some "", some d, none⟩ d) = some t := by
      rw [hrepo, hfun, find?_append_none hex]
      simp [List.find?, hexact]
    simp [createTask, hfind]

theorem c10_create_normalization_witness :
    createTask ⟨"a", some "", some 5, none⟩ "u" 1
        ⟨[⟨0, "a", none, 5, .pending, "u", 0⟩], [], 1⟩ =
      (.error (.conflict "Duplicate task found" 0 "Exact task match"),
       ⟨[⟨0, "a", none, 5, .pending, "u", 0⟩], [], 1⟩) :=
  (c10_create_normalization "a" 5 "u" ⟨[], [], 0⟩ 0 1).2.2
    ⟨0, "a", none, 5, .pending, "u", 0⟩ ⟨[⟨0, "a", none, 5, .pending, "u", 0⟩], [], 1⟩
    (by rfl)

end TaskService
